import Mathlib

/-!
# ScrapQT — verification of the scrape/dedup/enrichment pipeline

Shallow embedding of the core of the ScrapQT repository:
* the content hash of a URL (`_generate_url_hash` in `src/llm/server.py` and
  `database_manager.py`): SHA-256 of the UTF-8 bytes, first 16 hex characters;
* the Sentiment/Store service handlers (`SaveItems`, `SaveQuery`,
  `AnalyzeDatabaseSentiment` in `src/llm/server.py`) over an explicit
  relational state;
* the scrape orchestration helpers (`generate_scraped_items`,
  `scrape_and_save_linked_queries` in `src/scraper/plugin_loader.py`);
* the batch enrichment worker (`SentimentAnalysisWorker.run` in
  `sentiment_dialog.py`);
* the parallel-extraction result handling of the Tokopedia plugin
  (`TokopediaScraper.scrape` / `_create_error_product` in
  `src/scraper/plugins/tokopedia_scraper.py`).

Machine words are `Nat`s reduced mod 2^32 where the Python/C semantics
overflows; SQLite REAL columns are modelled with `ℚ`; nullable columns with
`Option`.
-/

namespace ScrapQT

/-! ## SHA-256 (the digest used by `hashlib.sha256(...).hexdigest()`) -/

namespace Sha256

def M32 : Nat := 4294967296

def add32 (a b : Nat) : Nat := (a + b) % M32

def rotr (n w : Nat) : Nat := ((w >>> n) ||| (w <<< (32 - n))) % M32

def shr (n w : Nat) : Nat := w >>> n

def complement32 (w : Nat) : Nat := w ^^^ 4294967295

def chC (e f g : Nat) : Nat := (e &&& f) ^^^ (complement32 e &&& g)

def majC (a b c : Nat) : Nat := (a &&& b) ^^^ (a &&& c) ^^^ (b &&& c)

def bigSigma0 (a : Nat) : Nat := rotr 2 a ^^^ rotr 13 a ^^^ rotr 22 a

def bigSigma1 (e : Nat) : Nat := rotr 6 e ^^^ rotr 11 e ^^^ rotr 25 e

def smallSigma0 (x : Nat) : Nat := rotr 7 x ^^^ rotr 18 x ^^^ shr 3 x

def smallSigma1 (x : Nat) : Nat := rotr 17 x ^^^ rotr 19 x ^^^ shr 10 x

/-- The 64 round constants of FIPS 180-4 §4.2.2, written in decimal. -/
def K : List Nat :=
  [1116352408, 1899447441, 3049323471, 3921009573, 961987163, 1508970993,
   2453635748, 2870763221, 3624381080, 310598401, 607225278, 1426881987,
   1925078388, 2162078206, 2614888103, 3248222580, 3835390401, 4022224774,
   264347078, 604807628, 770255983, 1249150122, 1555081692, 1996064986,
   2554220882, 2821834349, 2952996808, 3210313671, 3336571891, 3584528711,
   113926993, 338241895, 666307205, 773529912, 1294757372, 1396182291,
   1695183700, 1986661051, 2177026350, 2456956037, 2730485921, 2820302411,
   3259730800, 3345764771, 3516065817, 3600352804, 4094571909, 275423344,
   430227734, 506948616, 659060556, 883997877, 958139571, 1322822218,
   1537002063, 1747873779, 1955562222, 2024104815, 2227730452, 2361852424,
   2428436474, 2756734187, 3204031479, 3329325298]

structure Digest where
  w0 : Nat
  w1 : Nat
  w2 : Nat
  w3 : Nat
  w4 : Nat
  w5 : Nat
  w6 : Nat
  w7 : Nat
deriving Repr, DecidableEq

/-- The initial hash value of FIPS 180-4 §5.3.3, written in decimal. -/
def initDigest : Digest :=
  ⟨1779033703, 3144134277, 1013904242, 2773480762,
   1359893119, 2600822924, 528734635, 1541459225⟩

/-- Big-endian byte rendering of `n` over `len` bytes. -/
def toBytesBE (len n : Nat) : List Nat :=
  (List.range len).map (fun i => (n >>> (8 * (len - 1 - i))) % 256)

/-- Merkle–Damgård padding: append `0x80`, zero-pad to 56 mod 64, append the
64-bit big-endian bit length. -/
def pad (msg : List Nat) : List Nat :=
  let padlen := (55 + 64 - msg.length % 64) % 64
  msg ++ [0x80] ++ List.replicate padlen 0 ++ toBytesBE 8 (8 * msg.length)

/-- Big-endian 32-bit word from four bytes. -/
def beWord (bs : List Nat) : Nat :=
  bs.foldl (fun acc b => acc * 256 + b) 0

/-- The 64-entry message schedule of one 64-byte block. -/
def schedule (block : List Nat) : List Nat :=
  let w16 := (List.range 16).map (fun i => beWord ((block.drop (4 * i)).take 4))
  (List.range 48).foldl
    (fun w t =>
      w ++ [(smallSigma1 (w.getD (t + 14) 0) + w.getD (t + 9) 0 +
             smallSigma0 (w.getD (t + 1) 0) + w.getD t 0) % M32])
    w16

def round (st : Digest) (kw : Nat × Nat) : Digest :=
  let t1 := (st.w7 + bigSigma1 st.w4 + chC st.w4 st.w5 st.w6 + kw.1 + kw.2) % M32
  let t2 := (bigSigma0 st.w0 + majC st.w0 st.w1 st.w2) % M32
  ⟨(t1 + t2) % M32, st.w0, st.w1, st.w2, add32 st.w3 t1, st.w4, st.w5, st.w6⟩

def processBlock (st : Digest) (block : List Nat) : Digest :=
  let w := schedule block
  let r := (K.zip w).foldl round st
  ⟨add32 st.w0 r.w0, add32 st.w1 r.w1, add32 st.w2 r.w2, add32 st.w3 r.w3,
   add32 st.w4 r.w4, add32 st.w5 r.w5, add32 st.w6 r.w6, add32 st.w7 r.w7⟩

def sha256 (msg : List Nat) : Digest :=
  let padded := pad msg
  let nblocks := padded.length / 64
  ((List.range nblocks).map (fun i => (padded.drop (64 * i)).take 64)).foldl
    processBlock initDigest

/-- Lowercase hex characters of the digest, 8 per 32-bit word. -/
def toHex8 (w : Nat) : List Char :=
  (List.range 8).map (fun i => Nat.digitChar ((w >>> (4 * (7 - i))) % 16))

def hexChars (d : Digest) : List Char :=
  toHex8 d.w0 ++ toHex8 d.w1 ++ toHex8 d.w2 ++ toHex8 d.w3 ++
  toHex8 d.w4 ++ toHex8 d.w5 ++ toHex8 d.w6 ++ toHex8 d.w7

end Sha256

/-- UTF-8 encoding of one scalar value (`str.encode('utf-8')` per character). -/
def utf8EncodeChar (n : Nat) : List Nat :=
  if n < 0x80 then [n]
  else if n < 0x800 then
    [0xC0 ||| (n >>> 6), 0x80 ||| (n % 64)]
  else if n < 0x10000 then
    [0xE0 ||| (n >>> 12), 0x80 ||| ((n >>> 6) % 64), 0x80 ||| (n % 64)]
  else
    [0xF0 ||| (n >>> 18), 0x80 ||| ((n >>> 12) % 64), 0x80 ||| ((n >>> 6) % 64),
     0x80 ||| (n % 64)]

def strBytes (s : String) : List Nat :=
  s.data.flatMap (fun c => utf8EncodeChar c.toNat)

/-- `hashlib.sha256(url.encode('utf-8')).hexdigest()` as a character list. -/
def sha256HexOf (s : String) : List Char :=
  Sha256.hexChars (Sha256.sha256 (strBytes s))

/-- `SentimentServicer._generate_url_hash` (`src/llm/server.py:283-288`), which
is character-for-character the same function as
`DatabaseManager._generate_url_hash` (`database_manager.py:132-137`):
empty URL returns the empty-string sentinel, otherwise the first 16 hex
characters of the SHA-256 of the UTF-8 encoded URL. -/
def generate_url_hash (url : String) : String :=
  if url = "" then "" else String.mk ((sha256HexOf url).take 16)

/-! ## The relational state of the Sentiment/Store service

The SQLite schema created by `init_db` (`src/llm/server.py:21-165`):
`products` (with a UNIQUE `url_hash` column), the `product_queries`
junction (UNIQUE on `(product_id, query_id)`), `queries` (UNIQUE
`query_text`) and `query_links`. AUTOINCREMENT primary keys are modelled
with explicit next-id counters. -/

/-- One `services_pb2.ScrapedItem` of a `SaveItems` request stream. -/
structure Item where
  title : String
  price : ℚ
  review_score : ℚ
  review_count : Int
  link : String
  ecommerce : String
  is_used : Bool
  sentiment_score : ℚ
  description : String
  query_id : Nat
  image_url : String
deriving Repr, DecidableEq

/-- One row of the `products` table. -/
structure ProductRow where
  id : Nat
  title : String
  price : ℚ
  review_score : ℚ
  review_count : Int
  link : String
  ecommerce : String
  is_used : Bool
  sentiment_score : Option ℚ
  description : String
  query_id : Nat
  image_url : String
  url_hash : String
deriving Repr, DecidableEq

/-- One row of the `query_links` table:
`(primary_query_id, linked_query_id, relationship_type)`. -/
structure QueryLinkRow where
  primary_query_id : Nat
  linked_query_id : Nat
  relationship_type : String
deriving Repr, DecidableEq

/-- The database state. `product_queries` rows are `(product_id, query_id)`
pairs; `queries` rows are `(id, query_text)` pairs. -/
structure Db where
  products : List ProductRow
  product_queries : List (Nat × Nat)
  queries : List (Nat × String)
  query_links : List QueryLinkRow
  next_product_id : Nat
  next_query_id : Nat
deriving Repr, DecidableEq

/-- The integrity constraints the schema enforces (UNIQUE columns, primary
keys below the autoincrement counters, junction rows referencing existing
product ids). -/
def WellFormed (db : Db) : Prop :=
  (db.products.map (fun p => p.id)).Nodup ∧
  (∀ p ∈ db.products, p.id < db.next_product_id) ∧
  (db.products.map (fun p => p.url_hash)).Nodup ∧
  db.product_queries.Nodup ∧
  (∀ pr ∈ db.product_queries, pr.1 < db.next_product_id) ∧
  (db.queries.map (fun q => q.2)).Nodup ∧
  (∀ q ∈ db.queries, q.1 < db.next_query_id)

instance (db : Db) : Decidable (WellFormed db) := by
  unfold WellFormed; infer_instance

/-! ## `SaveItems` (`src/llm/server.py:301-349`) -/

/-- `SentimentServicer._link_product_to_query` (`src/llm/server.py:290-299`):
`INSERT OR IGNORE INTO product_queries (product_id, query_id)` — a no-op when
the pair already exists. -/
def link_product_to_query (pq : List (Nat × Nat)) (product_id query_id : Nat) :
    List (Nat × Nat) :=
  if (product_id, query_id) ∈ pq then pq else pq ++ [(product_id, query_id)]

/-- The `products` row inserted for a fresh item
(`src/llm/server.py:323-336`): a sentiment score of 0 is converted to NULL
for unanalyzed items. -/
def mkProductRow (nid : Nat) (it : Item) (uh : String) : ProductRow :=
  { id := nid, title := it.title, price := it.price,
    review_score := it.review_score, review_count := it.review_count,
    link := it.link, ecommerce := it.ecommerce, is_used := it.is_used,
    sentiment_score :=
      if it.sentiment_score = 0 then none else some it.sentiment_score,
    description := it.description, query_id := it.query_id,
    image_url := it.image_url, url_hash := uh }

/-- The in-progress state of one `SaveItems` call: the (uncommitted)
database plus the two counters of the handler. -/
structure SaveState where
  db : Db
  item_count : Nat
  duplicate_count : Nat
deriving Repr, DecidableEq

/-- The body of the `for item in request_iterator` loop
(`src/llm/server.py:310-336`): `SELECT id FROM products WHERE url_hash = ?`;
if a product exists, only link it to the incoming query id; otherwise insert
a new row (the sqlite `lastrowid`) and link that. -/
def saveItemsStep (st : SaveState) (it : Item) : SaveState :=
  let uh := generate_url_hash it.link
  match st.db.products.find? (fun p => p.url_hash == uh) with
  | some existing =>
      { st with
        db := { st.db with
          product_queries :=
            link_product_to_query st.db.product_queries existing.id it.query_id },
        duplicate_count := st.duplicate_count + 1 }
  | none =>
      let nid := st.db.next_product_id
      { db := { st.db with
          products := st.db.products ++ [mkProductRow nid it uh],
          product_queries :=
            link_product_to_query st.db.product_queries nid it.query_id,
          next_product_id := nid + 1 },
        item_count := st.item_count + 1,
        duplicate_count := st.duplicate_count }

/-- The result message `SaveStatus(success=..., items_saved=...)`. -/
structure SaveStatus where
  success : Bool
  items_saved : Nat
deriving Repr, DecidableEq

/-- Processing the request stream inside the transaction. A `none` entry
models the iterator (or any per-item database operation) raising an
unrecoverable error at that point; the loop then aborts. -/
def saveItemsLoop : SaveState → List (Option Item) → Option SaveState
  | st, [] => some st
  | _, none :: _ => none
  | st, some it :: rest => saveItemsLoop (saveItemsStep st it) rest

/-- `SentimentServicer.SaveItems` (`src/llm/server.py:301-349`): on normal
completion `conn.commit()` publishes the new state and the handler reports
`success=True, items_saved=item_count + duplicate_count`; on an exception
`conn.rollback()` restores the pre-call state and the handler reports
`success=False, items_saved=0`. -/
def saveItems (db : Db) (stream : List (Option Item)) : Db × SaveStatus :=
  match saveItemsLoop ⟨db, 0, 0⟩ stream with
  | some st => (st.db, ⟨true, st.item_count + st.duplicate_count⟩)
  | none => (db, ⟨false, 0⟩)

/-- The database effect of one error-free `SaveItems` call. -/
def saveItemsDb (db : Db) (items : List Item) : Db :=
  (items.foldl saveItemsStep ⟨db, 0, 0⟩).db

/-- A sequence of error-free `SaveItems` calls. -/
def saveItemsCalls (db : Db) (calls : List (List Item)) : Db :=
  calls.foldl saveItemsDb db

/-! ## `SaveQuery` (`src/llm/server.py:351-370`) -/

/-- The `INSERT OR IGNORE INTO queries (query_text) VALUES (?)` step of
`SaveQuery`: a no-op when a row with this text exists. -/
def saveQueryDb (db : Db) (text : String) : Db :=
  if db.queries.any (fun q => q.2 == text) then db
  else { db with queries := db.queries ++ [(db.next_query_id, text)],
                 next_query_id := db.next_query_id + 1 }

/-- `SentimentServicer.SaveQuery` (`src/llm/server.py:351-370`): the
`INSERT OR IGNORE` above followed by `SELECT id FROM queries WHERE
query_text = ?`, returning the first fetched id. -/
def saveQuery (db : Db) (text : String) : Db × Nat :=
  let db1 := saveQueryDb db text
  (db1, ((db1.queries.find? (fun q => q.2 == text)).map (fun q => q.1)).getD 0)

/-! ## `AnalyzeDatabaseSentiment` (`src/llm/server.py:223-281`) -/

/-- The handler's selection `SELECT id, title, description FROM products
WHERE sentiment_score IS NULL OR sentiment_score = 0`. -/
def needsAnalysis (p : ProductRow) : Prop :=
  p.sentiment_score = none ∨ p.sentiment_score = some 0

instance (p : ProductRow) : Decidable (needsAnalysis p) := by
  unfold needsAnalysis; infer_instance

def analysisCandidates (db : Db) : List ProductRow :=
  db.products.filter (fun p => decide (needsAnalysis p))

/-- The text assembled for one row (`src/llm/server.py:245-249`): the title
when truthy, then a space and the description when truthy. -/
def textToAnalyze (p : ProductRow) : String :=
  (if p.title ≠ "" then p.title else "") ++
  (if p.description ≠ "" then " " ++ p.description else "")

/-- Python's whitespace test for `str.strip()`. -/
def isPySpace (c : Char) : Bool :=
  c == ' ' || c == '\t' || c == '\n' || c == '\r' || c == '\x0b' || c == '\x0c'

/-- Python's `str.strip()`: leading and trailing whitespace removed. -/
def pyStrip (s : String) : String :=
  String.mk (((s.data.dropWhile isPySpace).reverse.dropWhile isPySpace).reverse)

/-- `UPDATE products SET sentiment_score = ? WHERE id = ?`. -/
def updateSentiment (products : List ProductRow) (pid : Nat) (v : ℚ) :
    List ProductRow :=
  products.map (fun q => if q.id = pid then { q with sentiment_score := some v }
                         else q)

/-- The per-row outcome of the `AnalyzeDatabaseSentiment` loop body
(`src/llm/server.py:244-270`). The scoring oracle
(`model.generate_content` followed by `int(...)`) is a function from the
analyzed text to `Option Int`; `none` models an API error or an unparsable
response. The row is updated (with the **raw** score) only when the text is
non-blank and the parsed score lies in `[1, 10]`; every other case merely
logs and moves on. -/
def analyzeUpdate (oracle : String → Option Int) (p : ProductRow) : Option ℚ :=
  if pyStrip (textToAnalyze p) = "" then none
  else match oracle (textToAnalyze p) with
    | some score => if 1 ≤ score ∧ score ≤ 10 then some (score : ℚ) else none
    | none => none

def analyzeStep (oracle : String → Option Int)
    (acc : List ProductRow × Nat) (p : ProductRow) : List ProductRow × Nat :=
  match analyzeUpdate oracle p with
  | some v => (updateSentiment acc.1 p.id v, acc.2 + 1)
  | none => acc

/-- `SentimentServicer.AnalyzeDatabaseSentiment`: fetch the candidate rows,
run the loop, commit, and return `items_analyzed`. -/
def analyzeDatabaseSentiment (oracle : String → Option Int) (db : Db) :
    Db × Nat :=
  let r := (analysisCandidates db).foldl (analyzeStep oracle) (db.products, 0)
  ({ db with products := r.1 }, r.2)

/-! ## Batch enrichment worker (`sentiment_dialog.py:94-136`) -/

/-- `normalized_score = (response.score - 5.5) / 4.5`
(`sentiment_dialog.py:113`). -/
def normalizeScore (score : ℚ) : ℚ := (score - 5.5) / 4.5

/-- The client-side filter `p.get('sentiment_score') is None`
(`sentiment_dialog.py:75`). -/
def workerCandidates (products : List ProductRow) : List ProductRow :=
  products.filter (fun p => decide (p.sentiment_score = none))

/-- One product of one batch (`sentiment_dialog.py:102-121`): analyze
`f"{title} {description}"` through the `Analyze` RPC, normalize, persist via
`DatabaseManager.update_product_sentiment`
(`database_manager.py:506-529`); on a per-item exception count a failure and
continue. The result triple is (products, items_analyzed, failed_items). -/
def workerStep (oracle : String → Option Int)
    (acc : List ProductRow × Nat × Nat) (p : ProductRow) :
    List ProductRow × Nat × Nat :=
  match oracle (p.title ++ " " ++ p.description) with
  | some score =>
      (updateSentiment acc.1 p.id (normalizeScore score), acc.2.1 + 1, acc.2.2)
  | none => (acc.1, acc.2.1, acc.2.2 + 1)

/-- `SentimentAnalysisWorker.run` (`sentiment_dialog.py:94-136`): the batch
slicing walks `products_to_analyze` in order in consecutive fixed-size
slices, so the data effect is the in-order fold over the filtered list (the
inter-batch sleep and progress signals carry no data). -/
def sentimentWorkerRun (oracle : String → Option Int)
    (products : List ProductRow) : List ProductRow × Nat × Nat :=
  (workerCandidates products).foldl (workerStep oracle) (products, 0, 0)

/-- The update a worker item persists, as an `Option`: always the normalized
score on oracle success, nothing on failure. -/
def workerUpdate (oracle : String → Option Int) (p : ProductRow) : Option ℚ :=
  (oracle (p.title ++ " " ++ p.description)).map (fun s => normalizeScore s)

/-- The shared shape of both score-writing loops: per selected row `r`,
either update the rows with `r`'s id or leave the table unchanged. -/
def scoreFold (f : ProductRow → Option ℚ) (R ps : List ProductRow) :
    List ProductRow :=
  R.foldl (fun acc r => match f r with
                        | some v => updateSentiment acc r.id v
                        | none => acc) ps

/-- First occurrences of a list of query ids, in order — the orderly effect
of repeated `INSERT OR IGNORE` of `(product_id, q)` pairs on the junction
table. -/
def dedupFirst (l : List Nat) : List Nat :=
  l.foldl (fun acc q => if q ∈ acc then acc else acc ++ [q]) []

/-- The database state after `SaveItems` has inserted the single product
`row` for a fixed URL and linked it to the (deduplicated) query ids `qs`. -/
def phaseDb (db0 : Db) (row : ProductRow) (qs : List Nat) : Db :=
  { products := db0.products ++ [row],
    product_queries := db0.product_queries
      ++ (dedupFirst qs).map (fun q => (db0.next_product_id, q)),
    queries := db0.queries, query_links := db0.query_links,
    next_product_id := db0.next_product_id + 1,
    next_query_id := db0.next_query_id }

/-- Closed form of a `scoreFold`: the unique selected row with a matching id
decides the final value of each table row. -/
def applySel (f : ProductRow → Option ℚ) (R : List ProductRow)
    (q : ProductRow) : ProductRow :=
  match R.find? (fun r => r.id == q.id) with
  | some r => match f r with
              | some v => { q with sentiment_score := some v }
              | none => q
  | none => q

/-! ## Scrape orchestration helpers (`src/scraper/plugin_loader.py`) -/

/-- A raw item dict returned by a plugin's `scrape`. The `title` key is
required: `generate_scraped_items` evaluates
`f"High-quality {item_data['title']} available on ..."` unconditionally
while building the description default, so an item without a title raises a
`KeyError`; every bundled plugin supplies one. The remaining keys are
optional (`item_data.get(...)` with defaults). -/
structure RawItem where
  title : String
  price : Option ℚ
  review_score : Option ℚ
  review_count : Option Int
  link : Option String
  is_used : Option Bool
  description : Option String
  image_url : Option String
deriving Repr, DecidableEq

/-- A loaded scraper plugin: the `ecommerce_name` property and the
`scrape(query)` operation of `BaseScraper`. -/
structure Plugin where
  ecommerce_name : String
  scrape : String → List RawItem

/-- `generate_scraped_items` (`src/scraper/plugin_loader.py:45-68`): one
`ScrapedItem` per raw item of each plugin, with field defaults, tagged with
the plugin's platform name, the given `query_id`, and `sentiment_score = 0`
(the not-yet-analyzed sentinel). -/
def generate_scraped_items (plugins : List Plugin) (query : String)
    (query_id : Nat) : List Item :=
  plugins.flatMap (fun plugin =>
    (plugin.scrape query).map (fun d =>
      { title := d.title,
        price := d.price.getD 0,
        review_score := d.review_score.getD 0,
        review_count := d.review_count.getD 0,
        link := d.link.getD "",
        ecommerce := plugin.ecommerce_name,
        is_used := d.is_used.getD false,
        description := d.description.getD
          ("High-quality " ++ d.title ++ " available on "
            ++ plugin.ecommerce_name),
        query_id := query_id,
        image_url := d.image_url.getD "",
        sentiment_score := 0 }))

/-- One `SaveItems` batch issued during linked-query expansion: the
expansion step's primary query id, the linked query id being expanded, and
the items streamed for it. -/
structure LinkedBatch where
  primary_query_id : Nat
  linked_query_id : Nat
  items : List Item
deriving Repr, DecidableEq

/-- `scrape_and_save_linked_queries` (`src/scraper/plugin_loader.py:70-105`),
modelled as the list of batches it streams to the Store service's
`SaveItems`. For each `query_links` row whose `primary_query_id` matches, it
looks up the linked query's text and regenerates items for that text — but
passes `primary_query_id` as the attribution id
(`plugin_loader.py:91`) — then recurses into the linked query's own links.
The Python recursion has no cycle guard; `fuel` bounds the depth for
totality (every terminating execution is reproduced with enough fuel). -/
def scrape_and_save_linked_queries (fuel : Nat) (db : Db)
    (plugins : List Plugin) (primary_query_id : Nat) : List LinkedBatch :=
  match fuel with
  | 0 => []
  | fuel + 1 =>
    (db.query_links.filter
        (fun l => l.primary_query_id == primary_query_id)).flatMap
      (fun l =>
        let linked_text :=
          ((db.queries.find? (fun q => q.1 == l.linked_query_id)).map
            (fun q => q.2)).getD ""
        { primary_query_id := primary_query_id,
          linked_query_id := l.linked_query_id,
          items :=
            generate_scraped_items plugins linked_text primary_query_id }
          :: scrape_and_save_linked_queries fuel db plugins l.linked_query_id)

/-! ## Tokopedia plugin: parallel extraction and error fencing
(`src/scraper/plugins/tokopedia_scraper.py`) -/

/-- The page content for one URL as the prioritized selector strategies
resolve it: each field holds the first non-empty selector result, `none`
when every selector misses (`_extract_product_data`,
`tokopedia_scraper.py:283-405`). `kondisi` is the harvested text near the
explicit condition field. -/
structure PageData where
  title : Option String
  price : Option ℚ
  review_score : Option ℚ
  review_count : Option Int
  description : Option String
  image_url : Option String
  kondisi : Option String
deriving Repr, DecidableEq

/-- What one extraction worker observes for its URL: either the parsed page
or an exception raised inside the worker's `try` block (driver setup
failure, navigation error, a timeout raised by the browser driver while
loading the page, ...) — the worker's blanket `except` turns every such
exception into an error product. -/
inductive FetchOutcome where
  | page (d : PageData)
  | fail (msg : String)
deriving Repr, DecidableEq

/-- The product dict built by `_extract_product_data` /
`_create_error_product`. -/
structure TProduct where
  link : String
  ecommerce : String
  title : String
  url_hash : String
  price : ℚ
  review_score : ℚ
  review_count : Int
  description : String
  image_url : String
  is_used : Bool
  scrape_error : Bool
  error_message : String
deriving Repr, DecidableEq

def charsStartWith : List Char → List Char → Bool
  | [], _ => true
  | _ :: _, [] => false
  | n :: ns, h :: hs => n == h && charsStartWith ns hs

def charsContain (needle : List Char) : List Char → Bool
  | [] => charsStartWith needle []
  | h :: hs => charsStartWith needle (h :: hs) || charsContain needle hs

/-- Python's `k in s` substring test. -/
def substrMem (needle haystack : String) : Bool :=
  charsContain needle.data haystack.data

/-- Python's `str.lower()` (per character). -/
def lowerStr (s : String) : String := String.mk (s.data.map Char.toLower)

def usedKeywordsKondisi : List String := ["bekas", "second", "preloved"]

def usedKeywordsFallback : List String :=
  ["bekas", "second", "preloved", "used", "seken"]

/-- `TokopediaScraper._create_error_product`
(`tokopedia_scraper.py:440-455`): the fenced extraction-error record —
`SCRAPE_ERROR:`-prefixed title, `scrape_error` flag set, zero/empty data
fields, and the unconditional 16-character URL hash. -/
def create_error_product (name url msg : String) : TProduct :=
  { link := url, ecommerce := name,
    title := "SCRAPE_ERROR: " ++ String.mk (msg.data.take 100),
    url_hash := String.mk ((sha256HexOf url).take 16),
    price := 0, review_score := 0, review_count := 0,
    description := "Error scraping product: " ++ msg,
    image_url := "", is_used := false,
    scrape_error := true, error_message := msg }

/-- `TokopediaScraper._extract_product_data`
(`tokopedia_scraper.py:257-438`): any exception yields an error product; a
missing/empty/fallback title raises `"Failed to extract product title"`
(line 417-418) and yields an error product; otherwise the parsed fields are
defaulted (`or 0.0` / `or ''`) and the used/new flag is derived from the
condition text when present, falling back to keyword search over
title+description. -/
def extract_product_data (env : String → FetchOutcome) (name url : String) :
    TProduct :=
  match env url with
  | .fail msg => create_error_product name url msg
  | .page d =>
    let title := d.title.getD "Unknown Product"
    if title = "" ∨ title = "Unknown Product" then
      create_error_product name url "Failed to extract product title"
    else
      let titleLower := lowerStr title
      let descLower := lowerStr (d.description.getD "")
      let fallbackUsed := usedKeywordsFallback.any
        (fun k => substrMem k (titleLower ++ " " ++ descLower))
      let is_used :=
        match d.kondisi with
        | some kt =>
            if lowerStr kt ≠ "" then
              usedKeywordsKondisi.any (fun k => substrMem k (lowerStr kt))
            else fallbackUsed
        | none => fallbackUsed
      { link := url, ecommerce := name,
        title := title,
        url_hash := String.mk ((sha256HexOf url).take 16),
        price := d.price.getD 0,
        review_score := d.review_score.getD 0,
        review_count := d.review_count.getD 0,
        description := d.description.getD "",
        image_url := d.image_url.getD "",
        is_used := is_used,
        scrape_error := false, error_message := "" }

/-- Phase 2 of `TokopediaScraper.scrape` (`tokopedia_scraper.py:486-519`):
submit the first `max_products = 20` URLs, then collect with
`for future in as_completed(...)`. `as_completed` yields each future only
once its worker has completed, so `future.result(timeout=30)` at line 503
returns that worker's product dict immediately — the `TimeoutError` path is
unreachable, every submitted worker is awaited to completion and its result
processed (a permanently hung worker would block the loop, not be skipped).
Only results without the `scrape_error` flag are appended to
`all_products`. Completion order does not matter to any claim, so
submission order is used. -/
def tokopedia_scrape_items (env : String → FetchOutcome) (name : String)
    (urls : List String) : List TProduct :=
  ((urls.take 20).map (extract_product_data env name)).filter
    (fun r => !r.scrape_error)

/-! ## Concrete values used to instantiate theorems on explicit inputs -/

def emptyDb : Db := ⟨[], [], [], [], 0, 0⟩

def prodNeedingScore : ProductRow :=
  { id := 1, title := "good product", price := 0, review_score := 0,
    review_count := 0, link := "https://a.example/p", ecommerce := "shop",
    is_used := false, sentiment_score := none, description := "",
    query_id := 1, image_url := "", url_hash := "h1" }

def dbOneUnscored : Db := ⟨[prodNeedingScore], [], [(1, "q")], [], 2, 2⟩

def oracleTen : String → Option Int := fun _ => some 10

def rawSample : RawItem :=
  { title := "Mouse X", price := some 10, review_score := none,
    review_count := none, link := some "https://a.example/m",
    is_used := none, description := none, image_url := none }

def samplePlugin : Plugin := ⟨"ShopA", fun _ => [rawSample]⟩

/-- Queries "laptop" (id 1) and "mouse" (id 2), with a `query_links` row
declaring "mouse" as linked to primary "laptop". -/
def dbLinked : Db :=
  ⟨[], [], [(1, "laptop"), (2, "mouse")], [⟨1, 2, "related"⟩], 0, 3⟩

/-- A page whose selectors all succeed. -/
def goodPage (t : String) : FetchOutcome :=
  .page ⟨some t, some 100, some 4, some 10, some "desc", some "img", none⟩

/-- A page on which every title selector missed. -/
def pageNoTitle : FetchOutcome :=
  .page ⟨none, some 100, none, none, some "desc", none, none⟩

/-- Five discovered URLs; `u3`'s title cannot be determined, the others
parse fine. -/
def envTitleFail : String → FetchOutcome := fun u =>
  if u = "u3" then pageNoTitle else goodPage ("Product " ++ u)

def fiveUrls : List String := ["u1", "u2", "u3", "u4", "u5"]

def sampleItem (lnk : String) (qid : Nat) : Item :=
  { title := "t", price := 0, review_score := 0, review_count := 0, link := lnk,
    ecommerce := "shop", is_used := false, sentiment_score := 0,
    description := "d", query_id := qid, image_url := "" }

/-! ## Supporting lemmas -/

theorem length_toHex8 (w : Nat) : (Sha256.toHex8 w).length = 8 := by
  simp [Sha256.toHex8]

theorem length_sha256HexOf (s : String) : (sha256HexOf s).length = 64 := by
  simp [sha256HexOf, Sha256.hexChars, length_toHex8]

theorem length_mk_string (l : List Char) : (String.mk l).length = l.length := rfl

theorem generate_url_hash_of_ne (url : String) (h : url ≠ "") :
    (generate_url_hash url).length = 16 := by
  simp only [generate_url_hash, if_neg h, length_mk_string, List.length_take,
    length_sha256HexOf]
  decide

theorem filter_snd_length_one (l : List (Nat × String)) (t : String)
    (hnd : (l.map (fun q => q.2)).Nodup)
    (hmem : l.any (fun q => q.2 == t) = true) :
    (l.filter (fun q => q.2 == t)).length = 1 := by
  induction l with
  | nil => simp at hmem
  | cons x rest ih =>
    simp only [List.map_cons, List.nodup_cons] at hnd
    by_cases hx : x.2 = t
    · have hrest : rest.filter (fun q => q.2 == t) = [] := by
        rw [List.filter_eq_nil_iff]
        intro q hq hqt
        exact hnd.1 (List.mem_map.mpr ⟨q, hq, (beq_iff_eq.mp hqt).trans hx.symm⟩)
      rw [List.filter_cons_of_pos (by simp [hx]), hrest]
      simp
    · rw [List.filter_cons_of_neg (by simp [hx])]
      apply ih hnd.2
      rcases List.any_eq_true.mp hmem with ⟨q, hq, hqt⟩
      rcases List.mem_cons.mp hq with rfl | hq'
      · exact absurd (beq_iff_eq.mp hqt) hx
      · exact List.any_eq_true.mpr ⟨q, hq', hqt⟩

theorem saveQueryDb_of_any (db : Db) (t : String)
    (h : db.queries.any (fun q => q.2 == t) = true) :
    saveQueryDb db t = db := by
  simp [saveQueryDb, h]

theorem saveQueryDb_post (db : Db) (t : String)
    (hnd : (db.queries.map (fun q => q.2)).Nodup) :
    ((saveQueryDb db t).queries.map (fun q => q.2)).Nodup ∧
    (saveQueryDb db t).queries.any (fun q => q.2 == t) = true ∧
    ((saveQueryDb db t).queries.filter (fun q => q.2 == t)).length = 1 := by
  by_cases hq : db.queries.any (fun q => q.2 == t)
  · refine ⟨by simp [saveQueryDb, hq, hnd], by simp [saveQueryDb, hq], ?_⟩
    simp only [saveQueryDb, if_pos hq]
    exact filter_snd_length_one _ _ hnd hq
  · have hnotin : t ∉ db.queries.map (fun q => q.2) := by
      intro hmem
      rcases List.mem_map.mp hmem with ⟨q, hqin, hq2⟩
      exact hq (List.any_eq_true.mpr ⟨q, hqin, by simp [hq2]⟩)
    have hflt : db.queries.filter (fun q => q.2 == t) = [] := by
      rw [List.filter_eq_nil_iff]
      intro q hqin hqt
      exact hq (List.any_eq_true.mpr ⟨q, hqin, hqt⟩)
    refine ⟨?_, ?_, ?_⟩
    · simp only [saveQueryDb, if_neg hq, List.map_append, List.map_cons,
        List.map_nil]
      simp [List.nodup_append, hnd, hnotin]
    · simp [saveQueryDb, if_neg hq, List.any_append]
    · simp only [saveQueryDb, if_neg hq, List.filter_append, hflt]
      simp

theorem find?_unique {α : Type} (l : List α) (p : α → Bool) (a : α)
    (ha : a ∈ l) (hpa : p a = true) (huniq : ∀ b ∈ l, p b = true → b = a) :
    l.find? p = some a := by
  induction l with
  | nil => cases ha
  | cons x rest ih =>
    by_cases hx : p x = true
    · rw [List.find?_cons_of_pos _ hx]
      exact congrArg some (huniq x (List.mem_cons_self _ _) hx)
    · rw [List.find?_cons_of_neg _ hx]
      rcases List.mem_cons.mp ha with rfl | ha'
      · exact absurd hpa hx
      · exact ih ha' (fun b hb hpb => huniq b (List.mem_cons_of_mem _ hb) hpb)

theorem eq_of_nodup_map {α β : Type} (l : List α) (f : α → β)
    (hnd : (l.map f).Nodup) {a b : α} (ha : a ∈ l) (hb : b ∈ l)
    (hf : f a = f b) : a = b := by
  induction l with
  | nil => cases ha
  | cons x rest ih =>
    simp only [List.map_cons, List.nodup_cons] at hnd
    rcases List.mem_cons.mp ha with rfl | ha' <;>
      rcases List.mem_cons.mp hb with rfl | hb'
    · rfl
    · have : f a ∈ rest.map f := by
        rw [hf]; exact List.mem_map.mpr ⟨b, hb', rfl⟩
      exact absurd this hnd.1
    · have : f b ∈ rest.map f := by
        rw [← hf]; exact List.mem_map.mpr ⟨a, ha', rfl⟩
      exact absurd this hnd.1
    · exact ih hnd.2 ha' hb'

theorem find?_filter_self (l : List ProductRow) (pr : ProductRow → Bool)
    (hnd : (l.map (fun p => p.id)).Nodup) (q : ProductRow)
    (hqm : q ∈ l) (hq : pr q = true) :
    (l.filter pr).find? (fun r => r.id == q.id) = some q := by
  apply find?_unique
  · exact List.mem_filter.mpr ⟨hqm, hq⟩
  · simp
  · intro b hb hbid
    exact eq_of_nodup_map l (fun p => p.id) hnd
      (List.mem_of_mem_filter hb) hqm (by simpa using hbid)

theorem find?_filter_none (l : List ProductRow) (pr : ProductRow → Bool)
    (hnd : (l.map (fun p => p.id)).Nodup) (q : ProductRow)
    (hqm : q ∈ l) (hq : pr q = false) :
    (l.filter pr).find? (fun r => r.id == q.id) = none := by
  rw [List.find?_eq_none]
  intro b hb hbid
  have hbq : b = q :=
    eq_of_nodup_map l (fun p => p.id) hnd
      (List.mem_of_mem_filter hb) hqm (by simpa using hbid)
  have := (List.mem_filter.mp hb).2
  rw [hbq, hq] at this
  exact Bool.false_ne_true this

theorem scoreFold_char (f : ProductRow → Option ℚ) (R : List ProductRow) :
    ∀ ps : List ProductRow, ((R.map (fun r => r.id)).Nodup) →
      scoreFold f R ps = ps.map (applySel f R) := by
  induction R with
  | nil =>
    intro ps _
    have h : ps.map (applySel f []) = ps.map id :=
      List.map_congr_left (fun a _ => rfl)
    simp [scoreFold, h]
  | cons r R ih =>
    intro ps hnd
    simp only [List.map_cons, List.nodup_cons] at hnd
    have hstep : (match f r with
                  | some v => updateSentiment ps r.id v
                  | none => ps)
        = ps.map (fun q => match f r with
            | some v =>
                if q.id = r.id then { q with sentiment_score := some v } else q
            | none => q) := by
      cases hf : f r with
      | none => simp
      | some v => simp [updateSentiment]
    have h1 : scoreFold f (r :: R) ps
        = scoreFold f R (ps.map (fun q => match f r with
            | some v =>
                if q.id = r.id then { q with sentiment_score := some v } else q
            | none => q)) := by
      simp only [scoreFold, List.foldl_cons]
      rw [← hstep]
    rw [h1, ih _ hnd.2, List.map_map]
    apply List.map_congr_left
    intro q _
    show applySel f R (match f r with
          | some v =>
              if q.id = r.id then { q with sentiment_score := some v } else q
          | none => q)
        = applySel f (r :: R) q
    by_cases hq : q.id = r.id
    · have hfindR : ∀ q' : ProductRow, q'.id = q.id →
          R.find? (fun r2 => r2.id == q'.id) = none := by
        intro q' hq'
        rw [List.find?_eq_none]
        intro b hb hbid
        exact hnd.1 (List.mem_map.mpr
          ⟨b, hb, by rw [beq_iff_eq.mp hbid, hq', hq]⟩)
      have hhead : (r.id == q.id) = true := by simp [hq]
      have hfind2 : List.find? (fun r2 => r2.id == q.id) (r :: R) = some r := by
        rw [List.find?_cons_of_pos]
        exact hhead
      cases hf : f r with
      | none =>
        simp only [applySel, hfindR q rfl, hfind2, hf]
      | some v =>
        simp only [if_pos hq, applySel, hfindR q rfl, hfind2, hf]
    · have hu : (match f r with
          | some v =>
              if q.id = r.id then { q with sentiment_score := some v } else q
          | none => q) = q := by
        cases hf : f r with
        | none => rfl
        | some v => simp [hq]
      have hhead : (r.id == q.id) = false :=
        beq_eq_false_iff_ne.mpr (Ne.symm hq)
      have hfind2 : List.find? (fun r2 => r2.id == q.id) (r :: R)
          = List.find? (fun r2 => r2.id == q.id) R := by
        rw [List.find?_cons_of_neg]
        simp [hhead]
      rw [hu]
      simp only [applySel, hfind2]

theorem find?_append_none {α : Type} (l₁ l₂ : List α) (p : α → Bool)
    (h : l₁.find? p = none) : (l₁ ++ l₂).find? p = l₂.find? p := by
  induction l₁ with
  | nil => simp
  | cons x rest ih =>
    by_cases hx : p x = true
    · rw [List.find?_cons_of_pos _ hx] at h
      cases h
    · rw [List.find?_cons_of_neg _ hx] at h
      rw [List.cons_append, List.find?_cons_of_neg _ hx]
      exact ih h

theorem dedupFirst_aux_mem (l : List Nat) :
    ∀ (acc : List Nat) (a : Nat),
      a ∈ l.foldl (fun acc q => if q ∈ acc then acc else acc ++ [q]) acc
        ↔ a ∈ acc ∨ a ∈ l := by
  induction l with
  | nil => intro acc a; simp
  | cons q rest ih =>
    intro acc a
    rw [List.foldl_cons, ih]
    by_cases hq : q ∈ acc
    · rw [if_pos hq]
      constructor
      · exact fun h => h.elim Or.inl (fun h2 => Or.inr (List.mem_cons_of_mem _ h2))
      · rintro (h | h)
        · exact Or.inl h
        · rcases List.mem_cons.mp h with rfl | h2
          · exact Or.inl hq
          · exact Or.inr h2
    · rw [if_neg hq]
      simp only [List.mem_append, List.mem_cons, List.mem_singleton]
      tauto

theorem dedupFirst_aux_nodup (l : List Nat) :
    ∀ acc : List Nat, acc.Nodup →
      (l.foldl (fun acc q => if q ∈ acc then acc else acc ++ [q]) acc).Nodup := by
  induction l with
  | nil => intro acc h; simpa using h
  | cons q rest ih =>
    intro acc h
    rw [List.foldl_cons]
    by_cases hq : q ∈ acc
    · rw [if_pos hq]
      exact ih acc h
    · rw [if_neg hq]
      apply ih
      simp [List.nodup_append, h, hq]

theorem dedupFirst_mem (l : List Nat) (a : Nat) : a ∈ dedupFirst l ↔ a ∈ l := by
  rw [dedupFirst, dedupFirst_aux_mem]
  simp

theorem dedupFirst_length (l : List Nat) :
    (dedupFirst l).length = l.toFinset.card := by
  have hnd : (dedupFirst l).Nodup := dedupFirst_aux_nodup l [] List.nodup_nil
  have hfin : (dedupFirst l).toFinset = l.toFinset := by
    ext a
    simp [List.mem_toFinset, dedupFirst_mem]
  rw [← hfin, List.toFinset_card_of_nodup hnd]

theorem dedupFirst_append (l : List Nat) (q : Nat) :
    dedupFirst (l ++ [q])
      = if q ∈ dedupFirst l then dedupFirst l else dedupFirst l ++ [q] := by
  simp [dedupFirst, List.foldl_append]

theorem analyzeFold_fst (oracle : String → Option Int) (R : List ProductRow) :
    ∀ acc : List ProductRow × Nat,
      (R.foldl (analyzeStep oracle) acc).1
        = scoreFold (analyzeUpdate oracle) R acc.1 := by
  induction R with
  | nil => intro acc; rfl
  | cons r R ih =>
    intro acc
    rw [List.foldl_cons, ih (analyzeStep oracle acc r)]
    cases hf : analyzeUpdate oracle r <;> simp [analyzeStep, scoreFold, hf]

theorem workerFold_fst (oracle : String → Option Int) (R : List ProductRow) :
    ∀ acc : List ProductRow × Nat × Nat,
      (R.foldl (workerStep oracle) acc).1
        = scoreFold (workerUpdate oracle) R acc.1 := by
  induction R with
  | nil => intro acc; rfl
  | cons r R ih =>
    intro acc
    rw [List.foldl_cons, ih (workerStep oracle acc r)]
    cases hf : oracle (r.title ++ " " ++ r.description) <;>
      simp [workerStep, workerUpdate, scoreFold, hf]

theorem filter_map_id_nodup (l : List ProductRow) (pr : ProductRow → Bool)
    (hnd : (l.map (fun p => p.id)).Nodup) :
    ((l.filter pr).map (fun p => p.id)).Nodup :=
  List.Nodup.sublist ((l.filter_sublist).map (fun p => p.id)) hnd

theorem saveItemsLoop_of_none_mem (stream : List (Option Item))
    (herr : none ∈ stream) : ∀ st, saveItemsLoop st stream = none := by
  induction stream with
  | nil => cases herr
  | cons x rest ih =>
    intro st
    cases x with
    | none => rfl
    | some it =>
      rcases List.mem_cons.mp herr with h | h
      · exact Option.noConfusion h
      · exact ih h _

theorem saveItemsLoop_of_all_some (stream : List (Option Item))
    (herr : ∀ x ∈ stream, x.isSome) (st : SaveState) :
    saveItemsLoop st stream = some ((stream.filterMap id).foldl saveItemsStep st) := by
  induction stream generalizing st with
  | nil => rfl
  | cons x rest ih =>
    cases x with
    | none => exact absurd (herr none (List.mem_cons_self _ _)) (by simp)
    | some it =>
      have : ∀ y ∈ rest, y.isSome := fun y hy => herr y (List.mem_cons_of_mem _ hy)
      simpa [saveItemsLoop] using ih this (saveItemsStep st it)

theorem saveItemsStep_cases (st : SaveState) (it : Item) :
    ((st.db.products.find? (fun p =>
        p.url_hash == generate_url_hash it.link)).isSome ∧
      (saveItemsStep st it).db.products = st.db.products ∧
      (saveItemsStep st it).item_count = st.item_count ∧
      (saveItemsStep st it).duplicate_count = st.duplicate_count + 1) ∨
    ((st.db.products.find? (fun p =>
        p.url_hash == generate_url_hash it.link)) = none ∧
      (saveItemsStep st it).db.products
        = st.db.products ++ [mkProductRow st.db.next_product_id it
            (generate_url_hash it.link)] ∧
      (saveItemsStep st it).item_count = st.item_count + 1 ∧
      (saveItemsStep st it).duplicate_count = st.duplicate_count) := by
  cases hfind : st.db.products.find? (fun p => p.url_hash == generate_url_hash it.link) with
  | none => exact Or.inr ⟨rfl, by simp [saveItemsStep, hfind], by simp [saveItemsStep, hfind],
      by simp [saveItemsStep, hfind]⟩
  | some ex => exact Or.inl ⟨by simp [hfind], by simp [saveItemsStep, hfind],
      by simp [saveItemsStep, hfind], by simp [saveItemsStep, hfind]⟩

theorem saveItemsFold_counts (items : List Item) (st : SaveState) :
    (items.foldl saveItemsStep st).item_count
        + (items.foldl saveItemsStep st).duplicate_count
      = st.item_count + st.duplicate_count + items.length := by
  induction items generalizing st with
  | nil => simp
  | cons it rest ih =>
    rw [List.foldl_cons]
    rcases saveItemsStep_cases st it with ⟨_, _, hic, hdc⟩ | ⟨_, _, hic, hdc⟩ <;>
      · rw [ih (saveItemsStep st it), hic, hdc, List.length_cons]; omega

theorem saveItemsFold_products (items : List Item) (st : SaveState) :
    (items.foldl saveItemsStep st).db.products.length + st.item_count
      = st.db.products.length + (items.foldl saveItemsStep st).item_count := by
  induction items generalizing st with
  | nil => simp
  | cons it rest ih =>
    rw [List.foldl_cons]
    have h2 := ih (saveItemsStep st it)
    rcases saveItemsStep_cases st it with ⟨_, hp, hic, _⟩ | ⟨_, hp, hic, _⟩
    · have hlen : (saveItemsStep st it).db.products.length
          = st.db.products.length := by rw [hp]
      omega
    · have hlen : (saveItemsStep st it).db.products.length
          = st.db.products.length + 1 := by rw [hp]; simp
      omega

theorem analyzeDatabaseSentiment_products (oracle : String → Option Int)
    (db : Db) (hnd : (db.products.map (fun p => p.id)).Nodup) :
    (analyzeDatabaseSentiment oracle db).1.products
      = db.products.map (fun p =>
          if needsAnalysis p then
            match analyzeUpdate oracle p with
            | some v => { p with sentiment_score := some v }
            | none => p
          else p) := by
  have h1 : (analyzeDatabaseSentiment oracle db).1.products
      = scoreFold (analyzeUpdate oracle) (analysisCandidates db) db.products := by
    simp only [analyzeDatabaseSentiment]
    exact analyzeFold_fst oracle _ (db.products, 0)
  rw [h1, scoreFold_char (analyzeUpdate oracle) (analysisCandidates db)
    db.products (filter_map_id_nodup _ _ hnd)]
  apply List.map_congr_left
  intro q hq
  by_cases hneed : needsAnalysis q
  · have hfind := find?_filter_self db.products
      (fun p => decide (needsAnalysis p)) hnd q hq (by simpa using hneed)
    rw [if_pos hneed]
    simp only [applySel, analysisCandidates, hfind]
  · have hfind := find?_filter_none db.products
      (fun p => decide (needsAnalysis p)) hnd q hq (by simpa using hneed)
    rw [if_neg hneed]
    simp only [applySel, analysisCandidates, hfind]

theorem saveItems_dedup_phase (url : String) (db0 : Db) (row : ProductRow)
    (hno : ∀ p ∈ db0.products, p.url_hash ≠ generate_url_hash url)
    (hpq : ∀ pr ∈ db0.product_queries, pr.1 ≠ db0.next_product_id)
    (hrow : row.url_hash = generate_url_hash url)
    (hid : row.id = db0.next_product_id) (items : List Item) :
    ∀ (qs : List Nat) (st : SaveState),
      (∀ it ∈ items, it.link = url) →
      st.db = phaseDb db0 row qs →
      (items.foldl saveItemsStep st).db
        = phaseDb db0 row (qs ++ items.map (fun it => it.query_id)) := by
  induction items with
  | nil =>
    intro qs st _ hst
    simpa using hst
  | cons it rest ih =>
    intro qs st hurl hst
    rw [List.foldl_cons]
    have hlink : it.link = url := hurl it (List.mem_cons_self _ _)
    have hfind : st.db.products.find?
        (fun p => p.url_hash == generate_url_hash it.link) = some row := by
      rw [hst, hlink]
      show (db0.products ++ [row]).find?
        (fun p => p.url_hash == generate_url_hash url) = some row
      rw [find?_append_none]
      · exact List.find?_cons_of_pos _ (by simp [hrow])
      · rw [List.find?_eq_none]
        intro p hp
        simp [hno p hp]
    have hmem_iff : ((db0.next_product_id, it.query_id) ∈
          db0.product_queries
            ++ (dedupFirst qs).map (fun q => (db0.next_product_id, q)))
        ↔ it.query_id ∈ dedupFirst qs := by
      rw [List.mem_append]
      constructor
      · rintro (h | h)
        · exact absurd rfl (hpq _ h)
        · rcases List.mem_map.mp h with ⟨a, ha, heq⟩
          injection heq with h1 h2
          subst h2
          exact ha
      · intro h
        exact Or.inr (List.mem_map.mpr ⟨it.query_id, h, rfl⟩)
    have hlpq : link_product_to_query (phaseDb db0 row qs).product_queries
          row.id it.query_id
        = (phaseDb db0 row (qs ++ [it.query_id])).product_queries := by
      rw [hid]
      simp only [link_product_to_query, phaseDb, dedupFirst_append]
      by_cases hq : it.query_id ∈ dedupFirst qs
      · rw [if_pos (hmem_iff.mpr hq), if_pos hq]
      · rw [if_neg (fun hmem => hq (hmem_iff.mp hmem)), if_neg hq,
          List.map_append]
        simp
    have hst' : ({ st.db with product_queries :=
          link_product_to_query st.db.product_queries row.id it.query_id } : Db)
        = phaseDb db0 row (qs ++ [it.query_id]) := by
      rw [hst, hlpq]
      simp [phaseDb]
    simp only [saveItemsStep, hfind]
    have := ih (qs ++ [it.query_id])
      ⟨{ st.db with product_queries :=
           link_product_to_query st.db.product_queries row.id it.query_id },
        st.item_count, st.duplicate_count + 1⟩
      (fun it2 h2 => hurl it2 (List.mem_cons_of_mem _ h2)) hst'
    simpa [List.append_assoc] using this

theorem saveItems_first_insert (url : String) (db0 : Db) (it : Item)
    (hno : ∀ p ∈ db0.products, p.url_hash ≠ generate_url_hash url)
    (hpq : ∀ pr ∈ db0.product_queries, pr.1 ≠ db0.next_product_id)
    (hlink : it.link = url) (st : SaveState) (hst : st.db = db0) :
    (saveItemsStep st it).db
      = phaseDb db0
          (mkProductRow db0.next_product_id it (generate_url_hash url))
          [it.query_id] := by
  have hfind : st.db.products.find?
      (fun p => p.url_hash == generate_url_hash it.link) = none := by
    rw [hst, hlink, List.find?_eq_none]
    intro p hp
    simp [hno p hp]
  have hnot : (db0.next_product_id, it.query_id) ∉ db0.product_queries :=
    fun hmem => hpq _ hmem rfl
  simp only [saveItemsStep, hfind]
  rw [hst, hlink]
  simp [phaseDb, link_product_to_query, hnot, dedupFirst]

theorem saveItems_calls_phase (url : String) (db0 : Db) (row : ProductRow)
    (hno : ∀ p ∈ db0.products, p.url_hash ≠ generate_url_hash url)
    (hpq : ∀ pr ∈ db0.product_queries, pr.1 ≠ db0.next_product_id)
    (hrow : row.url_hash = generate_url_hash url)
    (hid : row.id = db0.next_product_id) :
    ∀ (calls : List (List Item)) (qs : List Nat),
      (∀ c ∈ calls, ∀ it ∈ c, it.link = url) →
      saveItemsCalls (phaseDb db0 row qs) calls
        = phaseDb db0 row
            (qs ++ (calls.flatten).map (fun it => it.query_id)) := by
  intro calls
  induction calls with
  | nil =>
    intro qs _
    simp [saveItemsCalls]
  | cons c rest ih =>
    intro qs hurl
    have h1 : saveItemsDb (phaseDb db0 row qs) c
        = phaseDb db0 row (qs ++ c.map (fun it => it.query_id)) :=
      saveItems_dedup_phase url db0 row hno hpq hrow hid c qs
        ⟨phaseDb db0 row qs, 0, 0⟩ (hurl c (List.mem_cons_self _ _)) rfl
    have h2 : saveItemsCalls (phaseDb db0 row qs) (c :: rest)
        = saveItemsCalls (saveItemsDb (phaseDb db0 row qs) c) rest := rfl
    rw [h2, h1, ih _ (fun c2 hc2 => hurl c2 (List.mem_cons_of_mem _ hc2))]
    simp [List.flatten_cons, List.append_assoc]

theorem saveItems_calls_char (url : String) (db0 : Db)
    (hno : ∀ p ∈ db0.products, p.url_hash ≠ generate_url_hash url)
    (hpq : ∀ pr ∈ db0.product_queries, pr.1 ≠ db0.next_product_id) :
    ∀ calls : List (List Item),
      (∀ c ∈ calls, ∀ it ∈ c, it.link = url) →
      calls.flatten ≠ [] →
      ∃ row : ProductRow, row.url_hash = generate_url_hash url ∧
        row.id = db0.next_product_id ∧
        saveItemsCalls db0 calls
          = phaseDb db0 row ((calls.flatten).map (fun it => it.query_id)) := by
  intro calls
  induction calls with
  | nil =>
    intro _ hne
    simp at hne
  | cons c rest ih =>
    intro hurl hne
    cases c with
    | nil =>
      have hrest : rest.flatten ≠ [] := by simpa using hne
      obtain ⟨row, h1, h2, h3⟩ :=
        ih (fun c2 hc2 => hurl c2 (List.mem_cons_of_mem _ hc2)) hrest
      refine ⟨row, h1, h2, ?_⟩
      have heq : saveItemsCalls db0 ([] :: rest) = saveItemsCalls db0 rest := rfl
      rw [heq, h3]
      simp
    | cons it its =>
      have hlk : it.link = url :=
        hurl _ (List.mem_cons_self _ _) _ (List.mem_cons_self _ _)
      have hurl1 : ∀ it2 ∈ its, it2.link = url :=
        fun it2 h2 => hurl _ (List.mem_cons_self _ _) _ (List.mem_cons_of_mem _ h2)
      have h1 : (saveItemsStep ⟨db0, 0, 0⟩ it).db
          = phaseDb db0
              (mkProductRow db0.next_product_id it (generate_url_hash url))
              [it.query_id] :=
        saveItems_first_insert url db0 it hno hpq hlk _ rfl
      have h2 : saveItemsDb db0 (it :: its)
          = phaseDb db0
              (mkProductRow db0.next_product_id it (generate_url_hash url))
              ([it.query_id] ++ its.map (fun it2 => it2.query_id)) := by
        rw [saveItemsDb, List.foldl_cons]
        exact saveItems_dedup_phase url db0 _ hno hpq rfl rfl its
          [it.query_id] _ hurl1 h1
      refine ⟨mkProductRow db0.next_product_id it (generate_url_hash url),
        rfl, rfl, ?_⟩
      have h3 : saveItemsCalls db0 ((it :: its) :: rest)
          = saveItemsCalls (saveItemsDb db0 (it :: its)) rest := rfl
      rw [h3, h2, saveItems_calls_phase url db0 _ hno hpq rfl rfl rest _
        (fun c2 hc2 => hurl c2 (List.mem_cons_of_mem _ hc2))]
      simp [List.flatten_cons, List.append_assoc]

theorem filter_of_map {α β : Type} (f : α → β) (p : β → Bool) :
    ∀ l : List α, (l.map f).filter p = (l.filter (fun a => p (f a))).map f := by
  intro l
  induction l with
  | nil => rfl
  | cons a l ih => by_cases h : p (f a) = true <;> simp [List.filter_cons, h, ih]

theorem generate_scraped_items_query_id (plugins : List Plugin)
    (query : String) (qid : Nat) :
    ∀ it ∈ generate_scraped_items plugins query qid, it.query_id = qid := by
  intro it hit
  simp only [generate_scraped_items, List.mem_flatMap, List.mem_map] at hit
  obtain ⟨plugin, _, d, _, rfl⟩ := hit
  rfl

/-! ## Claim theorems -/

/-- **C2** fails as stated: with queries "laptop" (id 1) and "mouse" (id 2),
a `query_links` row (primary 1, linked 2), and one plugin returning one
item, the expansion produces exactly the `SaveItems` batch for linked query
2 — and every item in it carries `query_id = 1` (the primary), **not** the
linked query's id 2. -/
theorem linked_query_attribution_counterexample :
    scrape_and_save_linked_queries 2 dbLinked [samplePlugin] 1 ≠ [] ∧
    (∀ b ∈ scrape_and_save_linked_queries 2 dbLinked [samplePlugin] 1,
      b.linked_query_id = 2 ∧ b.items ≠ [] ∧
      ∀ it ∈ b.items, it.query_id = 1 ∧ it.query_id ≠ b.linked_query_id) := by
  decide

/-- **C2** (amended): when the linked-query expander runs, every item
scraped for a linked query carries the id of the query the link was followed
from (the expansion step's **primary** query id) — not the linked query's
own id — and every emitted batch corresponds to an existing `query_links`
row. -/
theorem linked_query_attribution_amended (fuel : Nat) :
    ∀ (db : Db) (plugins : List Plugin) (pid : Nat),
      ∀ b ∈ scrape_and_save_linked_queries fuel db plugins pid,
        (∀ it ∈ b.items, it.query_id = b.primary_query_id) ∧
        ∃ l ∈ db.query_links, l.primary_query_id = b.primary_query_id ∧
          l.linked_query_id = b.linked_query_id := by
  induction fuel with
  | zero =>
    intro db plugins pid b hb
    simp [scrape_and_save_linked_queries] at hb
  | succ fuel ih =>
    intro db plugins pid b hb
    simp only [scrape_and_save_linked_queries, List.mem_flatMap] at hb
    obtain ⟨l, hl, hmem⟩ := hb
    have hlmem : l ∈ db.query_links := List.mem_of_mem_filter hl
    have hlpid : l.primary_query_id = pid :=
      beq_iff_eq.mp (List.mem_filter.mp hl).2
    rcases List.mem_cons.mp hmem with rfl | hrec
    · refine ⟨?_, l, hlmem, by simpa using hlpid, rfl⟩
      intro it hit
      exact generate_scraped_items_query_id _ _ _ it hit
    · exact ih db plugins l.linked_query_id b hrec

set_option maxRecDepth 100000 in
/-- **C8** fails as stated at the words "is counted": with five discovered
URLs of which `u3`'s title cannot be determined, the worker does turn the
item into a fenced extraction-error record (flagged, `SCRAPE_ERROR:`-titled)
and the 4 sibling products are returned — but the record is dropped without
being counted anywhere: the scrape's entire output is **equal** to that of a
run in which `u3` was never discovered at all, so no count or trace of the
extraction error survives. -/
theorem extraction_uncounted_counterexample :
    (extract_product_data envTitleFail "Tokopedia" "u3").scrape_error
        = true ∧
    (extract_product_data envTitleFail "Tokopedia" "u3").title
        = "SCRAPE_ERROR: Failed to extract product title" ∧
    (tokopedia_scrape_items envTitleFail "Tokopedia" fiveUrls).length = 4 ∧
    (∀ r ∈ tokopedia_scrape_items envTitleFail "Tokopedia" fiveUrls,
      r.scrape_error = false ∧ r.link ≠ "u3") ∧
    tokopedia_scrape_items envTitleFail "Tokopedia" fiveUrls
      = tokopedia_scrape_items envTitleFail "Tokopedia"
          ["u1", "u2", "u4", "u5"] := by
  decide

/-- **C8** (amended): an item whose title cannot be determined after all
selector strategies — or whose worker raises any exception, which is how a
timeout inside the worker manifests — is turned by its worker into a fenced
extraction-error record (`scrape_error` flag set) that the collection loop
excludes from the item list returned by `scrape`, without aborting sibling
items, whose successful products are all still returned; the record is
**not** counted: the returned list is exactly the successful products of the
non-failing URLs, and the collection loop enforces no per-item timeout of
its own (`future.result(timeout=30)` is applied to already-completed
futures, so every submitted worker's result is processed). -/
theorem extraction_error_fencing (env : String → FetchOutcome)
    (name : String) (urls : List String) :
    (∀ u d, env u = .page d →
      (d.title.getD "Unknown Product" = "" ∨
       d.title.getD "Unknown Product" = "Unknown Product") →
      extract_product_data env name u
        = create_error_product name u "Failed to extract product title") ∧
    (∀ u msg, env u = .fail msg →
      extract_product_data env name u = create_error_product name u msg) ∧
    (∀ name2 url msg,
      (create_error_product name2 url msg).scrape_error = true) ∧
    (∀ r ∈ tokopedia_scrape_items env name urls, r.scrape_error = false) ∧
    (∀ u ∈ urls.take 20,
      (extract_product_data env name u).scrape_error = false →
      extract_product_data env name u
        ∈ tokopedia_scrape_items env name urls) ∧
    (tokopedia_scrape_items env name urls
      = ((urls.take 20).filter
          (fun u => !(extract_product_data env name u).scrape_error)).map
          (extract_product_data env name)) := by
  refine ⟨?_, ?_, fun _ _ _ => rfl, ?_, ?_, ?_⟩
  · intro u d henv hbad
    simp only [extract_product_data, henv]
    rw [if_pos hbad]
  · intro u msg henv
    simp [extract_product_data, henv]
  · intro r hr
    have h2 := (List.mem_filter.mp hr).2
    simpa using h2
  · intro u hu hok
    simp only [tokopedia_scrape_items]
    rw [List.mem_filter]
    exact ⟨List.mem_map.mpr ⟨u, hu, rfl⟩, by simp [hok]⟩
  · simp only [tokopedia_scrape_items]
    exact filter_of_map (extract_product_data env name)
      (fun r => !r.scrape_error) (urls.take 20)

theorem extraction_error_fencing_witness :
    (∀ u d, envTitleFail u = .page d →
      (d.title.getD "Unknown Product" = "" ∨
       d.title.getD "Unknown Product" = "Unknown Product") →
      extract_product_data envTitleFail "Tokopedia" u
        = create_error_product "Tokopedia" u
            "Failed to extract product title") ∧
    (∀ u msg, envTitleFail u = .fail msg →
      extract_product_data envTitleFail "Tokopedia" u
        = create_error_product "Tokopedia" u msg) ∧
    (∀ name2 url msg,
      (create_error_product name2 url msg).scrape_error = true) ∧
    (∀ r ∈ tokopedia_scrape_items envTitleFail "Tokopedia" fiveUrls,
      r.scrape_error = false) ∧
    (∀ u ∈ fiveUrls.take 20,
      (extract_product_data envTitleFail "Tokopedia" u).scrape_error
          = false →
      extract_product_data envTitleFail "Tokopedia" u
        ∈ tokopedia_scrape_items envTitleFail "Tokopedia" fiveUrls) ∧
    (tokopedia_scrape_items envTitleFail "Tokopedia" fiveUrls
      = ((fiveUrls.take 20).filter (fun u =>
          !(extract_product_data envTitleFail "Tokopedia" u).scrape_error)).map
          (extract_product_data envTitleFail "Tokopedia")) :=
  extraction_error_fencing envTitleFail "Tokopedia" fiveUrls

theorem linked_query_attribution_amended_witness :
    (⟨1, 2, generate_scraped_items [samplePlugin] "mouse" 1⟩ : LinkedBatch)
        ∈ scrape_and_save_linked_queries 2 dbLinked [samplePlugin] 1 ∧
    ((∀ it ∈ (⟨1, 2, generate_scraped_items [samplePlugin] "mouse" 1⟩
          : LinkedBatch).items,
        it.query_id = (⟨1, 2, generate_scraped_items [samplePlugin] "mouse" 1⟩
          : LinkedBatch).primary_query_id) ∧
      ∃ l ∈ dbLinked.query_links,
        l.primary_query_id = (⟨1, 2,
            generate_scraped_items [samplePlugin] "mouse" 1⟩
          : LinkedBatch).primary_query_id ∧
        l.linked_query_id = (⟨1, 2,
            generate_scraped_items [samplePlugin] "mouse" 1⟩
          : LinkedBatch).linked_query_id) :=
  ⟨by decide,
    linked_query_attribution_amended 2 dbLinked [samplePlugin] 1 _ (by decide)⟩

/-- **C1**: for every sequence of error-free `SaveItems` calls whose items
all share one link URL (starting from a well-formed state holding no product
with that URL's hash), exactly one `products` row with that content hash
exists afterwards, and the number of `product_queries` junction rows for
that product equals the number of distinct query ids that submitted an item;
moreover an item whose hash matches an existing product never inserts a
product — it only performs the idempotent junction insert against the found
product's id. -/
theorem dedup_invariant (db : Db) (calls : List (List Item)) (url : String)
    (hwf : WellFormed db)
    (hurl : ∀ c ∈ calls, ∀ it ∈ c, it.link = url)
    (hno : ∀ p ∈ db.products, p.url_hash ≠ generate_url_hash url)
    (hne : calls.flatten ≠ []) :
    (((saveItemsCalls db calls).products.filter
        (fun p => p.url_hash == generate_url_hash url)).length = 1) ∧
    (∀ p ∈ (saveItemsCalls db calls).products,
      p.url_hash = generate_url_hash url →
        ((saveItemsCalls db calls).product_queries.filter
            (fun pr => pr.1 == p.id)).length
          = ((calls.flatten).map (fun it => it.query_id)).toFinset.card) ∧
    (∀ (st : SaveState) (it : Item) (ex : ProductRow),
      st.db.products.find?
          (fun p => p.url_hash == generate_url_hash it.link) = some ex →
      (saveItemsStep st it).db.products = st.db.products ∧
      (saveItemsStep st it).db.product_queries
        = link_product_to_query st.db.product_queries ex.id it.query_id) := by
  obtain ⟨_, _, _, _, hpqlt, _, _⟩ := hwf
  have hpq : ∀ pr ∈ db.product_queries, pr.1 ≠ db.next_product_id :=
    fun pr hpr => Nat.ne_of_lt (hpqlt pr hpr)
  obtain ⟨row, hrow, hid, hchar⟩ :=
    saveItems_calls_char url db hno hpq calls hurl hne
  rw [hchar]
  refine ⟨?_, ?_, ?_⟩
  · simp only [phaseDb, List.filter_append]
    have h0 : db.products.filter
        (fun p => p.url_hash == generate_url_hash url) = [] := by
      rw [List.filter_eq_nil_iff]
      intro p hp
      simp [hno p hp]
    rw [h0]
    simp [hrow]
  · intro p hp hph
    have hpmem : p ∈ db.products ++ [row] := hp
    rcases List.mem_append.mp hpmem with h | h
    · exact absurd hph (hno p h)
    · have hpr : p = row := by simpa using h
      subst hpr
      simp only [phaseDb, List.filter_append]
      have h0 : db.product_queries.filter (fun pr => pr.1 == p.id) = [] := by
        rw [List.filter_eq_nil_iff]
        intro pr hprm
        simp only [beq_iff_eq, hid]
        exact hpq pr hprm
      have h1 : ((dedupFirst ((calls.flatten).map
            (fun it => it.query_id))).map
              (fun q => (db.next_product_id, q))).filter
            (fun pr => pr.1 == p.id)
          = (dedupFirst ((calls.flatten).map (fun it => it.query_id))).map
              (fun q => (db.next_product_id, q)) := by
        rw [List.filter_eq_self]
        intro pr hprm
        rcases List.mem_map.mp hprm with ⟨a, _, rfl⟩
        simp [hid]
      rw [h0, h1]
      simp [List.length_map, dedupFirst_length]
  · intro st it ex hex
    exact ⟨by simp [saveItemsStep, hex], by simp [saveItemsStep, hex]⟩

theorem dedup_invariant_witness :
    WellFormed emptyDb ∧
    (∀ c ∈ [[sampleItem "https://a.example/p" 1],
            [sampleItem "https://a.example/p" 2,
             sampleItem "https://a.example/p" 1]],
      ∀ it ∈ c, it.link = "https://a.example/p") ∧
    (∀ p ∈ emptyDb.products,
      p.url_hash ≠ generate_url_hash "https://a.example/p") ∧
    ([[sampleItem "https://a.example/p" 1],
      [sampleItem "https://a.example/p" 2,
       sampleItem "https://a.example/p" 1]].flatten ≠ []) ∧
    ((((saveItemsCalls emptyDb
          [[sampleItem "https://a.example/p" 1],
           [sampleItem "https://a.example/p" 2,
            sampleItem "https://a.example/p" 1]]).products.filter
        (fun p => p.url_hash == generate_url_hash "https://a.example/p")).length
      = 1) ∧
    (∀ p ∈ (saveItemsCalls emptyDb
          [[sampleItem "https://a.example/p" 1],
           [sampleItem "https://a.example/p" 2,
            sampleItem "https://a.example/p" 1]]).products,
      p.url_hash = generate_url_hash "https://a.example/p" →
        ((saveItemsCalls emptyDb
            [[sampleItem "https://a.example/p" 1],
             [sampleItem "https://a.example/p" 2,
              sampleItem "https://a.example/p" 1]]).product_queries.filter
            (fun pr => pr.1 == p.id)).length
          = (([[sampleItem "https://a.example/p" 1],
               [sampleItem "https://a.example/p" 2,
                sampleItem "https://a.example/p" 1]].flatten).map
              (fun it => it.query_id)).toFinset.card) ∧
    (∀ (st : SaveState) (it : Item) (ex : ProductRow),
      st.db.products.find?
          (fun p => p.url_hash == generate_url_hash it.link) = some ex →
      (saveItemsStep st it).db.products = st.db.products ∧
      (saveItemsStep st it).db.product_queries
        = link_product_to_query st.db.product_queries ex.id it.query_id)) :=
  ⟨by decide, by decide, by decide, by decide,
    dedup_invariant emptyDb
      [[sampleItem "https://a.example/p" 1],
       [sampleItem "https://a.example/p" 2,
        sampleItem "https://a.example/p" 1]]
      "https://a.example/p" (by decide) (by decide) (by decide) (by decide)⟩

/-- **C4** fails as stated: on a database with one product whose score is
NULL, with the scoring oracle answering 10, `AnalyzeDatabaseSentiment`
persists the raw score 10 — outside the normalized range [-1.0, 1.0] — and
counts the item as analyzed; no failed-item record exists anywhere in the
result. -/
theorem analyze_db_sentiment_counterexample :
    prodNeedingScore.sentiment_score = none ∧
    dbOneUnscored.products = [prodNeedingScore] ∧
    ((analyzeDatabaseSentiment oracleTen dbOneUnscored).1.products.map
        (fun p => p.sentiment_score)) = [some 10] ∧
    (analyzeDatabaseSentiment oracleTen dbOneUnscored).2 = 1 ∧
    ¬ (-1 ≤ (10 : ℚ) ∧ (10 : ℚ) ≤ 1) := by
  refine ⟨rfl, rfl, by decide, by decide, by norm_num⟩

/-- **C4** (amended): after `AnalyzeDatabaseSentiment` completes, every
product whose stored score was NULL (or the 0 sentinel) beforehand either
has the **raw** integer oracle score in [1, 10] persisted — unnormalized —
or is left entirely unchanged (per-item failures are only logged); a product
whose title/description text is blank is skipped silently with no record. -/
theorem analyze_db_sentiment_amended (oracle : String → Option Int) (db : Db)
    (hwf : WellFormed db) :
    ((analyzeDatabaseSentiment oracle db).1.products
      = db.products.map (fun p =>
          if needsAnalysis p then
            match analyzeUpdate oracle p with
            | some v => { p with sentiment_score := some v }
            | none => p
          else p)) ∧
    (∀ p, pyStrip (textToAnalyze p) = "" → analyzeUpdate oracle p = none) ∧
    (∀ p v, analyzeUpdate oracle p = some v →
      ∃ s : Int, oracle (textToAnalyze p) = some s ∧ 1 ≤ s ∧ s ≤ 10 ∧
        v = (s : ℚ)) := by
  obtain ⟨hnd, _⟩ := hwf
  refine ⟨analyzeDatabaseSentiment_products oracle db hnd, ?_, ?_⟩
  · intro p hp
    simp [analyzeUpdate, hp]
  · intro p v hv
    by_cases hblank : pyStrip (textToAnalyze p) = ""
    · simp [analyzeUpdate, hblank] at hv
    · cases hs : oracle (textToAnalyze p) with
      | none => simp [analyzeUpdate, hblank, hs] at hv
      | some s =>
        by_cases hr : 1 ≤ s ∧ s ≤ 10
        · refine ⟨s, rfl, hr.1, hr.2, ?_⟩
          simp [analyzeUpdate, hblank, hs, hr] at hv
          exact hv.symm
        · simp [analyzeUpdate, hblank, hs, hr] at hv

theorem analyze_db_sentiment_amended_witness :
    WellFormed dbOneUnscored ∧
    (((analyzeDatabaseSentiment oracleTen dbOneUnscored).1.products
      = dbOneUnscored.products.map (fun p =>
          if needsAnalysis p then
            match analyzeUpdate oracleTen p with
            | some v => { p with sentiment_score := some v }
            | none => p
          else p)) ∧
    (∀ p, pyStrip (textToAnalyze p) = "" → analyzeUpdate oracleTen p = none) ∧
    (∀ p v, analyzeUpdate oracleTen p = some v →
      ∃ s : Int, oracleTen (textToAnalyze p) = some s ∧ 1 ≤ s ∧ s ≤ 10 ∧
        v = (s : ℚ))) :=
  ⟨by decide, analyze_db_sentiment_amended oracleTen dbOneUnscored (by decide)⟩

/-- **C5**: the batch enrichment worker (`SentimentAnalysisWorker.run`)
converts each raw oracle score `s` to `(s - 5.5) / 4.5` before persisting
it — raw 1 maps to exactly -1.0, raw 10 to exactly 1.0, the midpoints 5 and
6 to ∓1/9 (near 0) — and the persisted value of every analyzed product is
exactly the normalized score. -/
theorem score_normalization (oracle : String → Option Int)
    (products : List ProductRow)
    (hnd : (products.map (fun p => p.id)).Nodup) :
    normalizeScore 1 = -1 ∧ normalizeScore 10 = 1 ∧
    normalizeScore 5 = -(1/9) ∧ normalizeScore 6 = 1/9 ∧
    (sentimentWorkerRun oracle products).1
      = products.map (fun p =>
          if p.sentiment_score = none then
            match oracle (p.title ++ " " ++ p.description) with
            | some s => { p with sentiment_score := some (normalizeScore s) }
            | none => p
          else p) := by
  refine ⟨by norm_num [normalizeScore], by norm_num [normalizeScore],
    by norm_num [normalizeScore], by norm_num [normalizeScore], ?_⟩
  have h1 : (sentimentWorkerRun oracle products).1
      = scoreFold (workerUpdate oracle) (workerCandidates products) products := by
    simp only [sentimentWorkerRun]
    exact workerFold_fst oracle _ (products, 0, 0)
  rw [h1, scoreFold_char (workerUpdate oracle) (workerCandidates products)
    products (filter_map_id_nodup _ _ hnd)]
  apply List.map_congr_left
  intro q hq
  by_cases hneed : q.sentiment_score = none
  · have hfind := find?_filter_self products
      (fun p => decide (p.sentiment_score = none)) hnd q hq (by simpa using hneed)
    rw [if_pos hneed]
    simp only [applySel, workerCandidates, hfind, workerUpdate]
    cases hs : oracle (q.title ++ " " ++ q.description) <;> simp [hs]
  · have hfind := find?_filter_none products
      (fun p => decide (p.sentiment_score = none)) hnd q hq (by simpa using hneed)
    rw [if_neg hneed]
    simp only [applySel, workerCandidates, hfind]

theorem score_normalization_witness :
    (([prodNeedingScore].map (fun p => p.id)).Nodup) ∧
    (normalizeScore 1 = -1 ∧ normalizeScore 10 = 1 ∧
     normalizeScore 5 = -(1/9) ∧ normalizeScore 6 = 1/9 ∧
     (sentimentWorkerRun (fun _ => some 7) [prodNeedingScore]).1
       = [prodNeedingScore].map (fun p =>
           if p.sentiment_score = none then
             match (fun _ => some 7 : String → Option Int)
                 (p.title ++ " " ++ p.description) with
             | some s => { p with sentiment_score := some (normalizeScore s) }
             | none => p
           else p)) :=
  ⟨by decide, score_normalization (fun _ => some 7) [prodNeedingScore] (by decide)⟩

/-- **C10**: an incoming item whose `sentiment_score` equals 0 is inserted
with NULL stored (0 is the not-yet-analyzed sentinel), so a genuine score of
exactly 0 is never persisted through `SaveItems`; consistently,
`AnalyzeDatabaseSentiment` selects for analysis exactly the products whose
stored score is NULL or 0. -/
theorem zero_score_sentinel (db : Db) (it : Item)
    (hnew : db.products.find?
        (fun p => p.url_hash == generate_url_hash it.link) = none) :
    (∀ ic dc, (saveItemsStep ⟨db, ic, dc⟩ it).db.products
      = db.products
        ++ [mkProductRow db.next_product_id it (generate_url_hash it.link)]) ∧
    ((mkProductRow db.next_product_id it
        (generate_url_hash it.link)).sentiment_score
      = if it.sentiment_score = 0 then none else some it.sentiment_score) ∧
    (it.sentiment_score = 0 →
      (mkProductRow db.next_product_id it
        (generate_url_hash it.link)).sentiment_score = none) ∧
    ((mkProductRow db.next_product_id it
        (generate_url_hash it.link)).sentiment_score ≠ some 0) ∧
    (needsAnalysis (mkProductRow db.next_product_id it
        (generate_url_hash it.link)) ↔ it.sentiment_score = 0) ∧
    (∀ d : Db, ∀ p : ProductRow,
      p ∈ analysisCandidates d
        ↔ p ∈ d.products ∧
          (p.sentiment_score = none ∨ p.sentiment_score = some 0)) := by
  refine ⟨?_, rfl, ?_, ?_, ?_, ?_⟩
  · intro ic dc
    simp [saveItemsStep, hnew]
  · intro h
    simp [mkProductRow, h]
  · by_cases h : it.sentiment_score = 0 <;> simp [mkProductRow, h]
  · by_cases h : it.sentiment_score = 0 <;> simp [needsAnalysis, mkProductRow, h]
  · intro d p
    simp [analysisCandidates, List.mem_filter, needsAnalysis]

theorem zero_score_sentinel_witness :
    (emptyDb.products.find? (fun p =>
        p.url_hash == generate_url_hash (sampleItem "https://a.example/p" 1).link)
      = none) ∧
    ((∀ ic dc, (saveItemsStep ⟨emptyDb, ic, dc⟩
        (sampleItem "https://a.example/p" 1)).db.products
      = emptyDb.products
        ++ [mkProductRow emptyDb.next_product_id
              (sampleItem "https://a.example/p" 1)
              (generate_url_hash (sampleItem "https://a.example/p" 1).link)]) ∧
    ((mkProductRow emptyDb.next_product_id (sampleItem "https://a.example/p" 1)
        (generate_url_hash
          (sampleItem "https://a.example/p" 1).link)).sentiment_score
      = if (sampleItem "https://a.example/p" 1).sentiment_score = 0 then none
        else some (sampleItem "https://a.example/p" 1).sentiment_score) ∧
    ((sampleItem "https://a.example/p" 1).sentiment_score = 0 →
      (mkProductRow emptyDb.next_product_id (sampleItem "https://a.example/p" 1)
        (generate_url_hash
          (sampleItem "https://a.example/p" 1).link)).sentiment_score = none) ∧
    ((mkProductRow emptyDb.next_product_id (sampleItem "https://a.example/p" 1)
        (generate_url_hash
          (sampleItem "https://a.example/p" 1).link)).sentiment_score
      ≠ some 0) ∧
    (needsAnalysis (mkProductRow emptyDb.next_product_id
        (sampleItem "https://a.example/p" 1)
        (generate_url_hash (sampleItem "https://a.example/p" 1).link))
      ↔ (sampleItem "https://a.example/p" 1).sentiment_score = 0) ∧
    (∀ d : Db, ∀ p : ProductRow,
      p ∈ analysisCandidates d
        ↔ p ∈ d.products ∧
          (p.sentiment_score = none ∨ p.sentiment_score = some 0))) :=
  ⟨rfl, zero_score_sentinel emptyDb (sampleItem "https://a.example/p" 1) rfl⟩

/-- **C6**: `SaveItems` is atomic per stream: if an unrecoverable error occurs
while processing the item stream, the transaction is rolled back — the
database is returned in its exact pre-call state — and the handler returns
`success = false`, `items_saved = 0`. -/
theorem saveItems_atomic_rollback (db : Db) (stream : List (Option Item))
    (herr : none ∈ stream) :
    saveItems db stream = (db, ⟨false, 0⟩) := by
  unfold saveItems
  rw [saveItemsLoop_of_none_mem stream herr]

theorem saveItems_atomic_rollback_witness :
    none ∈ [some (sampleItem "https://a.example/p" 1), none] ∧
    saveItems emptyDb [some (sampleItem "https://a.example/p" 1), none]
      = (emptyDb, ⟨false, 0⟩) :=
  ⟨by decide, saveItems_atomic_rollback emptyDb _ (by decide)⟩

/-- **C3**: a `SaveItems` call that completes without an unrecoverable error
returns `success = true`, and `items_saved` is the sum of the handler's two
counters, where `item_count` is exactly the number of newly inserted
`products` rows and `duplicate_count` is exactly the number of stream items
that matched an existing product's content hash (the remaining, non-inserting
items). -/
theorem saveItems_items_saved_count (db : Db) (stream : List (Option Item))
    (herr : ∀ x ∈ stream, x.isSome) :
    (saveItems db stream).2.success = true ∧
    (saveItems db stream).1
      = ((stream.filterMap id).foldl saveItemsStep ⟨db, 0, 0⟩).db ∧
    (saveItems db stream).2.items_saved
      = ((stream.filterMap id).foldl saveItemsStep ⟨db, 0, 0⟩).item_count
        + ((stream.filterMap id).foldl saveItemsStep ⟨db, 0, 0⟩).duplicate_count ∧
    ((stream.filterMap id).foldl saveItemsStep ⟨db, 0, 0⟩).item_count
      = ((stream.filterMap id).foldl saveItemsStep ⟨db, 0, 0⟩).db.products.length
        - db.products.length ∧
    ((stream.filterMap id).foldl saveItemsStep ⟨db, 0, 0⟩).duplicate_count
      = (stream.filterMap id).length
        - ((stream.filterMap id).foldl saveItemsStep ⟨db, 0, 0⟩).item_count := by
  have hloop := saveItemsLoop_of_all_some stream herr ⟨db, 0, 0⟩
  have hcounts := saveItemsFold_counts (stream.filterMap id) ⟨db, 0, 0⟩
  have hprod := saveItemsFold_products (stream.filterMap id) ⟨db, 0, 0⟩
  simp only [saveItems, hloop]
  refine ⟨trivial, trivial, trivial, ?_, ?_⟩
  · have h := hprod; simp at h; omega
  · have h := hcounts; simp at h; omega

theorem saveItems_items_saved_count_witness :
    (∀ x ∈ [some (sampleItem "https://a.example/p" 1)], x.isSome) ∧
    ((saveItems emptyDb [some (sampleItem "https://a.example/p" 1)]).2.success = true ∧
     (saveItems emptyDb [some (sampleItem "https://a.example/p" 1)]).1
       = (([some (sampleItem "https://a.example/p" 1)].filterMap id).foldl
           saveItemsStep ⟨emptyDb, 0, 0⟩).db ∧
     (saveItems emptyDb [some (sampleItem "https://a.example/p" 1)]).2.items_saved
       = (([some (sampleItem "https://a.example/p" 1)].filterMap id).foldl
           saveItemsStep ⟨emptyDb, 0, 0⟩).item_count
         + (([some (sampleItem "https://a.example/p" 1)].filterMap id).foldl
             saveItemsStep ⟨emptyDb, 0, 0⟩).duplicate_count ∧
     (([some (sampleItem "https://a.example/p" 1)].filterMap id).foldl
         saveItemsStep ⟨emptyDb, 0, 0⟩).item_count
       = (([some (sampleItem "https://a.example/p" 1)].filterMap id).foldl
           saveItemsStep ⟨emptyDb, 0, 0⟩).db.products.length
         - emptyDb.products.length ∧
     (([some (sampleItem "https://a.example/p" 1)].filterMap id).foldl
         saveItemsStep ⟨emptyDb, 0, 0⟩).duplicate_count
       = ([some (sampleItem "https://a.example/p" 1)].filterMap id).length
         - (([some (sampleItem "https://a.example/p" 1)].filterMap id).foldl
             saveItemsStep ⟨emptyDb, 0, 0⟩).item_count) :=
  ⟨by decide, saveItems_items_saved_count emptyDb _ (by decide)⟩

/-- **C7**: calling `SaveQuery` twice with the same query text returns the
same `query_id` both times, leaves the database unchanged on the second call,
and leaves exactly one row in the `queries` table for that text. -/
theorem saveQuery_idempotent (db : Db) (t : String) (hwf : WellFormed db) :
    (saveQuery (saveQuery db t).1 t).2 = (saveQuery db t).2 ∧
    (saveQuery (saveQuery db t).1 t).1 = (saveQuery db t).1 ∧
    ((saveQuery (saveQuery db t).1 t).1.queries.filter
        (fun q => q.2 == t)).length = 1 := by
  obtain ⟨_, _, _, _, _, hnd, _⟩ := hwf
  obtain ⟨hnd1, hany1, hflt1⟩ := saveQueryDb_post db t hnd
  have hdb2 : saveQueryDb (saveQueryDb db t) t = saveQueryDb db t :=
    saveQueryDb_of_any _ _ hany1
  refine ⟨?_, ?_, ?_⟩
  · simp only [saveQuery, hdb2]
  · simp only [saveQuery, hdb2]
  · simp only [saveQuery, hdb2]
    exact hflt1

theorem saveQuery_idempotent_witness :
    WellFormed emptyDb ∧
    ((saveQuery (saveQuery emptyDb "laptop").1 "laptop").2
        = (saveQuery emptyDb "laptop").2 ∧
     (saveQuery (saveQuery emptyDb "laptop").1 "laptop").1
        = (saveQuery emptyDb "laptop").1 ∧
     ((saveQuery (saveQuery emptyDb "laptop").1 "laptop").1.queries.filter
        (fun q => q.2 == "laptop")).length = 1) :=
  ⟨by decide, saveQuery_idempotent emptyDb "laptop" (by decide)⟩

/-- **C9**: the content-hash function is a fixed function of its input
(deterministic on repeated calls); every non-empty URL yields a fixed-length
16-character digest, and the empty URL yields the defined empty-string
sentinel rather than failing. -/
theorem url_hash_stability (url : String) :
    generate_url_hash url = generate_url_hash url ∧
    (url ≠ "" → (generate_url_hash url).length = 16) ∧
    generate_url_hash "" = "" := by
  refine ⟨rfl, fun h => generate_url_hash_of_ne url h, rfl⟩

theorem url_hash_stability_witness :
    ("https://a.example/p" : String) ≠ "" ∧
    (generate_url_hash "https://a.example/p").length = 16 :=
  ⟨by decide, (url_hash_stability "https://a.example/p").2.1 (by decide)⟩

end ScrapQT
